import Mathlib

/-!
# Verification of the quint CLI command layer (src/quint/src/cliCommands.ts)

A shallow embedding of the driver-level logic of the quint CLI: the
random-number-generator construction (mkRng), the simulation outcome
classification (runSimulator), the exit-code contract (outputResult), the
configuration-error checks, the test filter (isMatchingTest / runTests), the
ITF header (addItfHeader), the output-template expansion
(expandOutputTemplate / expandNamedOutputTemplate) and the main-module
guess (guessMainModule).

JavaScript library behaviour (BigInt parsing, string truthiness, object
spread, String.replaceAll / split / join, Node path.basename) is modelled
explicitly. Components of the repository that are referenced but whose
sources are not available (the evaluator, the rng module, the verbosity
module) are modelled from the specification and marked as such.

The file is organised as definitions first, then the theorems about them.
-/

namespace QuintCli

/-! ## JavaScript truthiness -/

/-- JavaScript truthiness of an optional string value: `undefined` and the
empty string are falsy, every other string is truthy. -/
def jsTruthyStr : Option String → Bool
  | none => false
  | some s => s ≠ ""

/-- JavaScript truthiness of an optional big integer: `undefined` and `0n`
are falsy, every other bigint is truthy. -/
def jsTruthyOptInt : Option Int → Bool
  | none => false
  | some n => n != 0

/-! ## Model of the JavaScript BigInt(string) conversion -/

/-- Whitespace characters stripped by StringToBigInt. -/
def isJsWs (c : Char) : Bool :=
  c = ' ' || c = '\t' || c = '\n' || c = '\r'

/-- Numeric value of one digit in the given base, if valid. -/
def digitVal (base : Nat) (c : Char) : Option Nat :=
  let v : Option Nat :=
    if '0' ≤ c ∧ c ≤ '9' then some (c.toNat - '0'.toNat)
    else if 'a' ≤ c ∧ c ≤ 'f' then some (c.toNat - 'a'.toNat + 10)
    else if 'A' ≤ c ∧ c ≤ 'F' then some (c.toNat - 'A'.toNat + 10)
    else none
  match v with
  | some d => if d < base then some d else none
  | none => none

/-- Parse a non-empty digit string in the given base. -/
def parseDigits (base : Nat) : List Char → Option Nat
  | [] => none
  | cs => cs.foldl (fun acc c =>
      match acc, digitVal base c with
      | some n, some d => some (n * base + d)
      | _, _ => none) (some 0)

/-- Signed decimal integer: an optional sign followed by decimal digits. -/
def parseSignedDec : List Char → Option Int
  | '+' :: rest => (parseDigits 10 rest).map Int.ofNat
  | '-' :: rest => (parseDigits 10 rest).map (fun n => -(n : Int))
  | cs => (parseDigits 10 cs).map Int.ofNat

/-- Model of the JavaScript BigInt(string) conversion used by mkRng: the
string is trimmed; an empty remainder yields 0n; a 0x/0o/0b prefix selects
a non-decimal base; otherwise a signed decimal integer is parsed; anything
else is a SyntaxError, modelled as none. -/
def parseBigInt (s : String) : Option Int :=
  let cs := ((s.toList.dropWhile isJsWs).reverse.dropWhile isJsWs).reverse
  match cs with
  | [] => some 0
  | '0' :: c :: rest =>
    if c = 'x' ∨ c = 'X' then (parseDigits 16 rest).map Int.ofNat
    else if c = 'o' ∨ c = 'O' then (parseDigits 8 rest).map Int.ofNat
    else if c = 'b' ∨ c = 'B' then (parseDigits 2 rest).map Int.ofNat
    else parseSignedDec cs
  | _ => parseSignedDec cs

/-! ## Kernel-evaluable models of string library functions -/

/-- Model of the JavaScript String.endsWith / Lean String.endsWith on the
character-list representation, so that concrete runs evaluate inside the
kernel. -/
def strEndsWith (s suffix : String) : Bool :=
  suffix.toList.isSuffixOf s.toList

/-- Drop the last n characters of a string. -/
def strDropRight (s : String) (n : Nat) : String :=
  String.mk (s.toList.take (s.toList.length - n))

/-! ## The random number generator and mkRng -/

/-- Modelled from the spec: the state of the seeded random source
(src/quint/src/rng.ts is not among the available sources). Section 4.2
describes a deterministic pseudo-random generator whose draw sequence is
fully determined by its seed, so the model keeps exactly the seed. -/
structure Rng where
  seed : Int
deriving DecidableEq

deriving instance DecidableEq for Except

/-- Modelled from the spec: the newRng constructor (src/quint/src/rng.ts is
not among the available sources). Called with a seed it returns a generator
seeded with it; called without one it draws a fresh unpredictable seed,
modelled by the ambient fresh parameter. -/
def newRng (fresh : Int) : Option Int → Rng
  | some s => { seed := s }
  | none => { seed := fresh }

/-- The expression `seed ? newRng(seed) : newRng()` of mkRng
(cliCommands.ts line 1890): JavaScript truthiness decides whether the
parsed seed is passed on, so both undefined and 0n fall to the fresh
generator. -/
def mkRngFromParsed (fresh : Int) (seed : Option Int) : Rng :=
  if jsTruthyOptInt seed then newRng fresh seed else newRng fresh none

/-- mkRng (cliCommands.ts lines 1878-1891): when a seed string is given it
must parse as a big integer, otherwise a left error message is returned;
the generator is built from the parsed seed via JavaScript truthiness. -/
def mkRng (fresh : Int) (seedText : Option String) : Except String Rng :=
  match seedText with
  | some t =>
    match parseBigInt t with
    | none => .error ("--seed must be a big integer, found: " ++ t)
    | some n => .ok (mkRngFromParsed fresh (some n))
  | none => .ok (mkRngFromParsed fresh none)

/-! ## Outcome classification of the simulation driver -/

/-- Terminal status of a simulation run (cliCommands.ts lines 1531-1533). -/
inductive Status where
  | ok
  | violation
  | error
deriving DecidableEq

/-- Driver-level outcome: a status plus the runtime errors that produced an
error status (cliCommands.ts lines 1531-1533). -/
structure OutcomeM where
  status : Status
  errors : List String := []
deriving DecidableEq

/-- The outcome classification of runSimulator (cliCommands.ts lines
1531-1533): a right boolean true is ok, a right boolean false is a
violation, a left runtime error is an error carrying it. -/
def simOutcome (evalResult : Except String Bool) : OutcomeM :=
  match evalResult with
  | .ok b => { status := if b then .ok else .violation }
  | .error e => { status := .error, errors := [e] }

/-! ## Stage data, the runSimulator return switch and outputResult -/

/-- The CLI arguments that outputResult consults (cliCommands.ts lines
1830-1859): the --out file, the --out-itf file and the verbosity level. -/
structure OutputArgs where
  out : Option String
  outItf : Option String
  verbosity : Nat
deriving DecidableEq

/-- The fields of a procedure stage that the exit and seed-reporting logic
reads: its arguments, the reproducing seed (set by runSimulator from the
best trace) and the terminal status. -/
structure StageData where
  args : OutputArgs
  seed : Option Int
  status : Option Status
deriving DecidableEq

/-- deriveVerbosity (cliCommands.ts lines 1959-1961): a truthy --out
forces verbosity 0, otherwise the configured verbosity is used. -/
def deriveVerbosity (args : OutputArgs) : Nat :=
  if jsTruthyStr args.out then 0 else args.verbosity

/-- Modelled from the spec: verbosity.hasResults (src/quint/src/verbosity.ts
is not among the available sources). The spec describes a verbosity level
controlling printing; results such as the ok/violation line and the seed
line are shown from level 1 upwards. -/
def hasResults (level : Nat) : Bool :=
  1 ≤ level

/-- Modelled from the spec: verbosity.hasTestDetails (src/quint/src/verbosity.ts
is not among the available sources). Detailed per-test failure output,
including the per-test seed line, is shown from level 2 upwards. -/
def hasTestDetails (level : Nat) : Bool :=
  2 ≤ level

/-- The final switch of runSimulator (cliCommands.ts lines 1556-1597):
status ok returns a right stage, status error returns a left Runtime
error, status violation returns a left Invariant violated; the stage
carries the status. -/
def runSimulatorReturn (oc : OutcomeM) (st : StageData) :
    Except (String × StageData) StageData :=
  match oc.status with
  | .error => .error ("Runtime error", { st with status := some .error })
  | .ok => .ok { st with status := some .ok }
  | .violation => .error ("Invariant violated", { st with status := some .violation })

/-- The observable effects of outputResult: the process exit code, whether
the output JSON written to --out carries the seed field, and whether the
seed reproduction line was printed on the console. -/
structure OutputEffects where
  exitCode : Nat
  seedInJsonOut : Bool
  seedLinePrinted : Bool
deriving DecidableEq

/-- outputResult (cliCommands.ts lines 1830-1859): a right stage writes the
output data (which includes the seed) to --out when set, otherwise prints
the seed line when --out-itf is unset, the seed is truthy and the derived
verbosity shows results, and exits 0; a left stage does the same reporting
and exits 1. -/
def outputResultModel (r : Except (String × StageData) StageData) : OutputEffects :=
  match r with
  | .ok st =>
    { exitCode := 0
      seedInJsonOut := jsTruthyStr st.args.out && st.seed.isSome
      seedLinePrinted := !jsTruthyStr st.args.out &&
        (!jsTruthyStr st.args.outItf && jsTruthyOptInt st.seed &&
          hasResults (deriveVerbosity st.args)) }
  | .error (_, st) =>
    { exitCode := 1
      seedInJsonOut := jsTruthyStr st.args.out && st.seed.isSome
      seedLinePrinted := !jsTruthyStr st.args.out &&
        (!jsTruthyStr st.args.outItf && jsTruthyOptInt st.seed &&
          hasResults (deriveVerbosity st.args)) }

/-- The seed is surfaced to the user if it is either written into the
--out JSON document or printed as a console reproduction line. -/
def seedSurfaced (e : OutputEffects) : Bool :=
  e.seedInJsonOut || e.seedLinePrinted

/-- The stage used by the C6 counterexample: no --out file, an --out-itf
file set, default verbosity 2, and a reproducing seed 5 present. -/
def stC6 : StageData :=
  { args := { out := none, outItf := some "trace.itf", verbosity := 2 }
    seed := some 5
    status := none }

/-- Modelled from the spec: a failed test as reported by the evaluator
(src/quint/src/runtime is not among the available sources): its name, its
reproducing seed and its captured errors. -/
structure TestFailure where
  name : String
  seed : Int
  errors : List String
deriving DecidableEq

/-- The per-test seed reporting of runTests (cliCommands.ts lines
1389-1421): when the verbosity level shows test details, one seed line is
printed for every captured error of every failed test. -/
def testSeedLines (verbosityLevel : Nat) (failures : List TestFailure) :
    List (String × Int) :=
  if hasTestDetails verbosityLevel then
    (failures.map (fun f => f.errors.map (fun _ => (f.name, f.seed)))).flatten
  else []

/-! ## Main module guessing -/

/-- Model of Node path.basename: the characters after the last slash,
ignoring trailing slashes. -/
def basenameRaw (p : String) : String :=
  String.mk (((p.toList.reverse.dropWhile (fun c => c = '/')).takeWhile
    (fun c => c ≠ '/')).reverse)

/-- Model of Node path.basename(p, ext): the basename, with the extension
removed when it is a proper suffix of it. -/
def basenameWithExt (p ext : String) : String :=
  if strEndsWith (basenameRaw p) ext && basenameRaw p != ext then
    strDropRight (basenameRaw p) ext.length
  else basenameRaw p

/-- The default module name computed by parse (cliCommands.ts lines
1190-1195): when the source file parsed to exactly one module, that module
becomes the default main module. -/
def mkDefaultModuleName (moduleNames : List String) : Option String :=
  if moduleNames.length = 1 then moduleNames.head? else none

/-- guessMainModule (cliCommands.ts lines 1861-1872): a truthy --main wins;
otherwise the default module name from parse; otherwise the input file
basename with the .qnt extension stripped. -/
def guessMainModule (mainArg : Option String) (defaultModuleName : Option String)
    (input : String) : String :=
  if jsTruthyStr mainArg then mainArg.getD ""
  else
    match defaultModuleName with
    | some d => d
    | none => basenameWithExt input ".qnt"

/-- The main module name as computed from the CLI arguments and the parsed
module list, combining parse's default module name with guessMainModule. -/
def mainModuleName (mainArg : Option String) (moduleNames : List String)
    (input : String) : String :=
  guessMainModule mainArg (mkDefaultModuleName moduleNames) input

/-! ## The test driver: filter and pipeline -/

/-- isMatchingTest (cliCommands.ts lines 1950-1956): with a truthy --match
argument a definition name is selected when the regular expression matches
it (the regular-expression engine is abstracted as a parameter); otherwise
a name is selected when it ends with Test. -/
def isMatchingTest (regexTest : String → String → Bool)
    (matchArg : Option String) (name : String) : Bool :=
  if jsTruthyStr matchArg then regexTest (matchArg.getD "") name
  else strEndsWith name "Test"

/-- A definition as seen by the test driver: its name and its kind. -/
structure TestDef where
  name : String
  kind : String
deriving DecidableEq

/-- A parsed module as seen by the test driver: its name and its
definitions. -/
structure TModule where
  name : String
  defs : List TestDef
deriving DecidableEq

/-- The per-test result statuses of the evaluator (cliCommands.ts lines
1341-1355). -/
inductive TestStatus where
  | passed
  | failed
  | ignored
deriving DecidableEq

/-- The observable outcome of runTests: a configuration error message when
one occurred, the number of evaluators created, the names of the tests
that were run, the per-test results, and the names reported ignored. -/
structure TestRunOut where
  configError : Option String
  evaluatorsCreated : Nat
  testsRun : List String
  results : List (String × TestStatus)
  ignoredReported : List String
deriving DecidableEq

/-- The CLI arguments consumed by the runTests prefix. -/
structure TestArgs where
  main : Option String
  input : String
  seed : Option String
  matchArg : Option String
deriving DecidableEq

/-- runTests (cliCommands.ts lines 1278-1431, prefix and classification):
the main module is guessed and looked up (a miss is a configuration
error), the rng is built from the seed (a malformed seed is a
configuration error), then the definitions of kind def whose names pass
isMatchingTest become the test definitions, each is run through the
evaluator (abstracted as evalTest), and the ignored report is the subset
of results whose status is ignored. -/
def runTestsPipeline (fresh : Int) (regexTest : String → String → Bool)
    (evalTest : String → TestStatus) (modules : List TModule)
    (args : TestArgs) : TestRunOut :=
  match modules.find? (fun m =>
      m.name == mainModuleName args.main (modules.map TModule.name) args.input) with
  | none =>
    { configError := some ("Main module " ++
        mainModuleName args.main (modules.map TModule.name) args.input ++ " not found")
      evaluatorsCreated := 0, testsRun := [], results := [], ignoredReported := [] }
  | some m =>
    match mkRng fresh args.seed with
    | .error msg =>
      { configError := some msg
        evaluatorsCreated := 0, testsRun := [], results := [], ignoredReported := [] }
    | .ok _ =>
      { configError := none
        evaluatorsCreated := 1
        testsRun := (m.defs.filter (fun d =>
          d.kind == "def" && isMatchingTest regexTest args.matchArg d.name)).map TestDef.name
        results := (m.defs.filter (fun d =>
          d.kind == "def" && isMatchingTest regexTest args.matchArg d.name)).map
            (fun d => (d.name, evalTest d.name))
        ignoredReported := (((m.defs.filter (fun d =>
          d.kind == "def" && isMatchingTest regexTest args.matchArg d.name)).map
            (fun d => (d.name, evalTest d.name))).filter
              (fun r => r.2 == TestStatus.ignored)).map Prod.fst }

/-- The module used by the C7 counterexample: a single module A with one
definition foo of kind def whose name does not end in Test. -/
def tmodC7 : TModule :=
  { name := "A", defs := [{ name := "foo", kind := "def" }] }

/-! ## The simulation pipeline -/

/-- Modelled from the spec: the interface the evaluator presents to the
simulation driver (src/quint/src/runtime/impl/evaluator.ts is not among
the available sources). Section 4.1 gives the contract
apply(action, context, rng) -> (outcome, nextContextOrNone, frame); init,
step and the invariant are deterministic functions of the context and the
random source state. -/
structure SpecModuleM (σ : Type) where
  init : Rng → Except String (σ × Rng)
  step : σ → Rng → Except String (σ × Rng)
  inv : σ → Rng → Except String (Bool × Rng)

/-- Modelled from the spec: per-attempt sub-stream forking (section 4.2 and
section 9): attempt i derives deterministically from the root seed plus i. -/
def forkRng (root : Rng) (i : Nat) : Rng :=
  { seed := root.seed + i }

/-- Modelled from the spec: the stepping loop of one attempt (section 4.4):
up to maxSteps applications of the step action, evaluating the invariant
after each successful step; a false invariant ends the attempt as a
violation (boolean false), a runtime error aborts it, exhausting maxSteps
is ok (boolean true). The accumulated trace is the context sequence. -/
def runSteps {σ : Type} (m : SpecModuleM σ) :
    Nat → σ → Rng → List σ → (Except String Bool) × List σ
  | 0, _s, _g, acc => (.ok true, acc.reverse)
  | fuel + 1, s, g, acc =>
    match m.step s g with
    | .error e => (.error e, acc.reverse)
    | .ok (s2, g2) =>
      match m.inv s2 g2 with
      | .error e => (.error e, (s2 :: acc).reverse)
      | .ok (true, g3) => runSteps m fuel s2 g3 (s2 :: acc)
      | .ok (false, _) => (.ok false, (s2 :: acc).reverse)

/-- Modelled from the spec: one attempt (section 4.4): the init action is
applied once, then the stepping loop runs; the trace includes the initial
context. -/
def runAttempt {σ : Type} (m : SpecModuleM σ) (maxSteps : Nat) (g : Rng) :
    (Except String Bool) × List σ :=
  match m.init g with
  | .error e => (.error e, [])
  | .ok (s0, g1) => runSteps m maxSteps s0 g1 [s0]

/-- Modelled from the spec: the sampling loop (section 4.4 with the
numberOfTraces = 1 policy): attempts run from forked sub-streams indexed by
the attempt number; the loop stops at the first violation or error, and
exhausting maxSamples with no verdict is ok. -/
def runSamples {σ : Type} (m : SpecModuleM σ) (maxSteps : Nat) (root : Rng) :
    Nat → Nat → (Except String Bool) × List σ
  | 0, _i => (.ok true, [])
  | k + 1, i =>
    match runAttempt m maxSteps (forkRng root i) with
    | (.ok true, trace) =>
      match k with
      | 0 => (.ok true, trace)
      | _ + 1 => runSamples m maxSteps root k (i + 1)
    | (r, trace) => (r, trace)

/-- Modelled from the spec: evaluator.simulate (section 4.4): run up to
maxSamples attempts of up to maxSteps steps from the root generator,
returning the boolean verdict (or error) and the retained trace. -/
def simulateModel {σ : Type} (m : SpecModuleM σ) (root : Rng)
    (maxSamples maxSteps : Nat) : (Except String Bool) × List σ :=
  runSamples m maxSteps root maxSamples 0

/-- A parsed module as seen by the simulation driver: its name and its
evaluator-facing implementation. -/
structure QModule (σ : Type) where
  name : String
  impl : SpecModuleM σ

/-- The CLI arguments consumed by runSimulator; exprsOk abstracts whether
the init, step and invariant argument expressions parse and resolve
(cliCommands.ts lines 1495-1517). -/
structure SimArgs where
  main : Option String
  input : String
  seed : Option String
  maxSamples : Nat
  maxSteps : Nat
  exprsOk : Bool
deriving DecidableEq

/-- Result of a simulator invocation: either a configuration error issued
before any execution, or a terminal status with the retained traces. -/
inductive SimRunResult (σ : Type) where
  | configError (msg : String)
  | done (status : Status) (traces : List (List σ))
deriving DecidableEq

/-- The observable outcome of runSimulator: its result plus how many
evaluators were created and how many simulate calls ran. -/
structure SimRunOut (σ : Type) where
  res : SimRunResult σ
  evaluatorsCreated : Nat
  simulateCalls : Nat
deriving DecidableEq

/-- runSimulator (cliCommands.ts lines 1450-1597): the main module is
guessed and looked up (a miss is a configuration error before anything
runs), the rng is built from the seed (a malformed seed likewise), the
argument expressions are checked, and only then is the evaluator created
and its simulate call run; the outcome of the verdict is classified by
simOutcome. -/
def runSimulatorPipeline {σ : Type} (fresh : Int) (modules : List (QModule σ))
    (args : SimArgs) : SimRunOut σ :=
  match modules.find? (fun m =>
      m.name == mainModuleName args.main (modules.map QModule.name) args.input) with
  | none =>
    { res := .configError ("Main module " ++
        mainModuleName args.main (modules.map QModule.name) args.input ++ " not found")
      evaluatorsCreated := 0, simulateCalls := 0 }
  | some m =>
    match mkRng fresh args.seed with
    | .error msg => { res := .configError msg, evaluatorsCreated := 0, simulateCalls := 0 }
    | .ok rng =>
      if args.exprsOk then
        { res := .done (simOutcome (simulateModel m.impl rng args.maxSamples args.maxSteps).1).status
            [(simulateModel m.impl rng args.maxSamples args.maxSteps).2]
          evaluatorsCreated := 1
          simulateCalls := 1 }
      else { res := .configError "Argument error", evaluatorsCreated := 0, simulateCalls := 0 }

/-- A concrete module whose initial context records the seed of the random
source it was given: its trace makes the generator seed observable. -/
def mRec : QModule Int :=
  { name := "M"
    impl :=
      { init := fun g => .ok (g.seed, g)
        step := fun s g => .ok (s, g)
        inv := fun _ g => .ok (true, g) } }

/-- Simulator arguments with the explicit seed string 0. -/
def argsSeedZero : SimArgs :=
  { main := some "M", input := "M.qnt", seed := some "0"
    maxSamples := 1, maxSteps := 0, exprsOk := true }

/-- Simulator arguments with the explicit seed string 7. -/
def argsSeedSeven : SimArgs :=
  { main := some "M", input := "M.qnt", seed := some "7"
    maxSamples := 1, maxSteps := 0, exprsOk := true }

/-- Simulator arguments with a malformed seed string. -/
def argsSeedBad : SimArgs :=
  { main := none, input := "Other.qnt", seed := some "xyz"
    maxSamples := 1, maxSteps := 0, exprsOk := true }

/-- Test-driver arguments with a malformed seed string. -/
def argsTestSeedBad : TestArgs :=
  { main := none, input := "A.qnt", seed := some "zz", matchArg := none }

/-! ## JSON objects and the ITF header -/

/-- JSON values as produced for ITF trace documents. -/
inductive Json where
  | str (s : String)
  | int (n : Int)
  | obj (fields : List (String × Json))

/-- JavaScript property assignment on an object literal: an existing key
is overwritten in place, a new key is appended at the end. -/
def jsSet (o : List (String × Json)) (k : String) (v : Json) :
    List (String × Json) :=
  if k ∈ o.map Prod.fst then o.map (fun kv => if kv.1 = k then (k, v) else kv)
  else o ++ [(k, v)]

/-- JavaScript object spread: the properties of extra are assigned into
base in order, as in the literal with base fields followed by ...extra. -/
def jsSpread (base extra : List (String × Json)) : List (String × Json) :=
  extra.foldl (fun acc kv => jsSet acc kv.1 kv.2) base

/-- The metadata object built by addItfHeader (cliCommands.ts lines
1894-1902); the description and the timestamp come from the ambient clock
and are passed as parameters. -/
def itfMeta (source status descr : String) (ts : Int) : Json :=
  .obj [("format", .str "ITF"),
        ("format-description",
          .str "https://apalache.informal.systems/docs/adr/015adr-trace.html"),
        ("source", .str source),
        ("status", .str status),
        ("description", .str descr),
        ("timestamp", .int ts)]

/-- addItfHeader (cliCommands.ts lines 1893-1905): the returned object
starts with the #meta property holding the metadata and then spreads the
given trace object over it. -/
def addItfHeader (source status descr : String) (ts : Int)
    (traceInJson : List (String × Json)) : List (String × Json) :=
  jsSpread [("#meta", itfMeta source status descr ts)] traceInJson

/-! ## Character-list models of the string functions used by the
output-template expansion -/

/-- The first occurrence of pat inside s: the text before it and the text
after it, if any. -/
def splitFirst (pat : List Char) : List Char → Option (List Char × List Char)
  | [] => if pat.isPrefixOf ([] : List Char) then some ([], []) else none
  | c :: rest =>
    if pat.isPrefixOf (c :: rest) then some ([], (c :: rest).drop pat.length)
    else (splitFirst pat rest).map (fun pr => (c :: pr.1, pr.2))

/-- Model of JavaScript String.replaceAll, with explicit fuel so that it
is structurally recursive: each step rewrites the leftmost occurrence and
continues after it. -/
def replaceAllGo (pat repl : List Char) : Nat → List Char → List Char
  | 0, s => s
  | fuel + 1, s =>
    match splitFirst pat s with
    | none => s
    | some (pre, suf) => pre ++ repl ++ replaceAllGo pat repl fuel suf

/-- JavaScript String.replaceAll: every occurrence of pat, scanned left to
right without overlap, is replaced by repl. -/
def replaceAllL (pat repl s : List Char) : List Char :=
  replaceAllGo pat repl (s.length + 1) s

/-- Model of JavaScript String.split, with explicit fuel. -/
def splitAllGo (pat : List Char) : Nat → List Char → List (List Char)
  | 0, s => [s]
  | fuel + 1, s =>
    match splitFirst pat s with
    | none => [s]
    | some (pre, suf) => pre :: splitAllGo pat fuel suf

/-- JavaScript String.split on a non-empty separator. -/
def splitAllL (pat s : List Char) : List (List Char) :=
  splitAllGo pat (s.length + 1) s

/-- JavaScript Array.join on string pieces. -/
def joinWith (sep : List Char) : List (List Char) → List Char
  | [] => []
  | [x] => x
  | x :: y :: rest => x ++ sep ++ joinWith sep (y :: rest)

/-- JavaScript String.includes. -/
def includesL (pat s : List Char) : Bool :=
  (splitFirst pat s).isSome

/-- The placeholder for the trace index (cliCommands.ts lines 1963-1966). -/
def seqPH : List Char := "{seq}".toList

/-- The placeholder for the test name (cliCommands.ts lines 1963-1966). -/
def testPH : List Char := "{test}".toList

/-- The decimal rendering of the trace index. -/
def natToStrL (n : Nat) : List Char := (Nat.repr n).toList

/-- expandOutputTemplate (cliCommands.ts lines 2006-2018): when the
template contains the seq placeholder it is replaced everywhere by the
decimal index; otherwise, with autoAppend on, the template is split on
dots, the index is appended to the first part and the parts are rejoined;
otherwise the template is returned unchanged. -/
def expandOutputTemplate (template : List Char) (index : Nat) (autoAppend : Bool) :
    List Char :=
  if includesL seqPH template then replaceAllL seqPH (natToStrL index) template
  else if autoAppend then
    match splitAllL ['.'] template with
    | [] => []
    | p0 :: rest => joinWith ['.'] ((p0 ++ natToStrL index) :: rest)
  else template

/-- expandNamedOutputTemplate (cliCommands.ts lines 1984-1991): the test
placeholder is replaced everywhere by the test name, then the result goes
through expandOutputTemplate. -/
def expandNamedOutputTemplate (template name : List Char) (index : Nat)
    (autoAppend : Bool) : List Char :=
  expandOutputTemplate (replaceAllL testPH name template) index autoAppend

/-! ## Theorems -/

/-- Assigning a fresh key appends it at the end of the object. -/
theorem jsSet_not_mem (o : List (String × Json)) (k : String) (v : Json)
    (h : k ∉ o.map Prod.fst) : jsSet o k v = o ++ [(k, v)] := by
  simp [jsSet, h]

/-- Spreading an object whose keys are fresh for the base and mutually
distinct appends its properties in order. -/
theorem jsSpread_disjoint (extra : List (String × Json)) :
    ∀ base : List (String × Json),
      (∀ k ∈ extra.map Prod.fst, k ∉ base.map Prod.fst) →
      (extra.map Prod.fst).Nodup →
      jsSpread base extra = base ++ extra := by
  induction extra with
  | nil => intro base _ _; simp [jsSpread]
  | cons kv rest ih =>
    intro base hdisj hnodup
    have hk : kv.1 ∉ base.map Prod.fst := hdisj kv.1 (by simp)
    have hstep : jsSpread base (kv :: rest) = jsSpread (base ++ [kv]) rest := by
      simp only [jsSpread, List.foldl_cons]
      rw [jsSet_not_mem base kv.1 kv.2 hk]
    rw [hstep]
    have hnodupc : kv.1 ∉ rest.map Prod.fst ∧ (rest.map Prod.fst).Nodup := by
      rw [List.map_cons] at hnodup
      exact List.nodup_cons.mp hnodup
    have hdisj2 : ∀ k ∈ rest.map Prod.fst, k ∉ (base ++ [kv]).map Prod.fst := by
      intro k hkrest
      rw [List.map_append, List.mem_append]
      rintro (hbase | hhd)
      · exact hdisj k (by simp [hkrest]) hbase
      · have hkeq : k = kv.1 := by simpa using hhd
        exact hnodupc.1 (hkeq ▸ hkrest)
    rw [ih (base ++ [kv]) hdisj2 hnodupc.2]
    simp

/-- In an object with mutually distinct keys, looking a key up returns the
value stored with it. -/
theorem lookup_of_mem_nodup {β : Type} (l : List (String × β)) (k : String) (v : β)
    (hnodup : (l.map Prod.fst).Nodup) (hmem : (k, v) ∈ l) :
    List.lookup k l = some v := by
  induction l with
  | nil => cases hmem
  | cons p rest ih =>
    obtain ⟨k1, v1⟩ := p
    rcases List.mem_cons.mp hmem with heq | hrest
    · rw [show k1 = k from (Prod.mk.injEq .. ▸ heq.symm).1,
        show v1 = v from (Prod.mk.injEq .. ▸ heq.symm).2]
      simp [List.lookup]
    · have hnodupc : k1 ∉ rest.map Prod.fst ∧ (rest.map Prod.fst).Nodup := by
        rw [List.map_cons] at hnodup
        exact List.nodup_cons.mp hnodup
      have hk : (k == k1) = false := by
        rw [beq_eq_false_iff_ne]
        intro h
        have hmemk : k ∈ rest.map Prod.fst := List.mem_map_of_mem Prod.fst hrest
        exact hnodupc.1 (h ▸ hmemk)
      rw [List.lookup, hk]
      exact ih hnodupc.2 hrest

/-- C1: in runSimulator the terminal status is classified exactly as:
error iff the simulate call fails, ok iff it returns the boolean true,
violation iff it returns the boolean false, and no other status exists. -/
theorem c1_outcome_classification (r : Except String Bool) :
    ((simOutcome r).status = Status.error ↔ ∃ e, r = .error e) ∧
    ((simOutcome r).status = Status.ok ↔ r = .ok true) ∧
    ((simOutcome r).status = Status.violation ↔ r = .ok false) ∧
    ((simOutcome r).status = Status.error ∨ (simOutcome r).status = Status.ok ∨
      (simOutcome r).status = Status.violation) := by
  cases r with
  | ok b => cases b <;> simp [simOutcome]
  | error e => simp [simOutcome]

/-- C5: evaluation of mkRng at the failing input. The seed string "0"
parses as the big integer 0, yet the JavaScript truthiness test
`seed ? newRng(seed) : newRng()` treats 0n as false, so mkRng returns a
generator drawn from the fresh unpredictable seed (here 42 or 43) instead
of one seeded with 0; a nonzero seed string such as "7" is honoured. -/
theorem c5_seed_zero_ignored :
    parseBigInt "0" = some 0 ∧
    mkRng 42 (some "0") = .ok { seed := 42 } ∧
    mkRng 43 (some "0") = .ok { seed := 43 } ∧
    mkRng 42 (some "7") = .ok { seed := 7 } := by
  decide

/-- C2: composing the outcome classification, the runSimulator return
switch and outputResult: the exit code is 0 exactly when the status is ok
(the run produced no violation and no error), 1 exactly when the status is
a violation or an error, and runSimulator returns a success value exactly
for status ok. -/
theorem c2_exit_code_contract (r : Except String Bool) (st : StageData) :
    ((outputResultModel (runSimulatorReturn (simOutcome r) st)).exitCode = 0 ↔
      (simOutcome r).status = Status.ok) ∧
    ((outputResultModel (runSimulatorReturn (simOutcome r) st)).exitCode = 1 ↔
      ((simOutcome r).status = Status.violation ∨ (simOutcome r).status = Status.error)) ∧
    ((∃ st2, runSimulatorReturn (simOutcome r) st = .ok st2) ↔
      (simOutcome r).status = Status.ok) ∧
    (outputResultModel (runSimulatorReturn (simOutcome r) st)).exitCode =
      (if r = .ok true then 0 else 1) := by
  cases r with
  | ok b => cases b <;> simp [simOutcome, runSimulatorReturn, outputResultModel]
  | error e => simp [simOutcome, runSimulatorReturn, outputResultModel]

/-- C6 counterexample: a simulation run that ends in a violation (the
evaluator returned the boolean false), with --out-itf set and default
verbosity, exits with code 1 but surfaces the reproducing seed nowhere:
the console seed line is suppressed because --out-itf is set and no --out
JSON is written, refuting the claim that the seed is surfaced on every
failure. -/
theorem c6_seed_surfaced_counterexample :
    seedSurfaced (outputResultModel (runSimulatorReturn (simOutcome (.ok false)) stC6)) = false ∧
    (outputResultModel (runSimulatorReturn (simOutcome (.ok false)) stC6)).exitCode = 1 := by
  decide

/-- C6 amended: on a failing run the reproducing seed is surfaced exactly
under the output conditions of the code: with a truthy --out the seed is
written into the output JSON whenever the stage carries one; otherwise the
console seed line appears when --out-itf is not set, the seed is nonzero
and the derived verbosity shows results; a failed test's seed is printed
when the verbosity shows test details and the failure carries at least one
error. -/
theorem c6_seed_surfaced_conditions (msg : String) (st : StageData) (s : Int)
    (v : Nat) (failures : List TestFailure) (f : TestFailure) :
    (st.seed.isSome = true → jsTruthyStr st.args.out = true →
      seedSurfaced (outputResultModel (.error (msg, st))) = true) ∧
    (st.seed = some s → s ≠ 0 → jsTruthyStr st.args.out = false →
      jsTruthyStr st.args.outItf = false → hasResults st.args.verbosity = true →
      seedSurfaced (outputResultModel (.error (msg, st))) = true) ∧
    (hasTestDetails v = true → f ∈ failures → f.errors ≠ [] →
      (f.name, f.seed) ∈ testSeedLines v failures) := by
  refine ⟨?_, ?_, ?_⟩
  · intro hseed hout
    simp [outputResultModel, seedSurfaced, hseed, hout]
  · intro hseed hnz hout hitf hres
    have hv : deriveVerbosity st.args = st.args.verbosity := by
      simp [deriveVerbosity, hout]
    simp [outputResultModel, seedSurfaced, hseed, hout, hitf, hv, hres,
      jsTruthyOptInt, hnz]
  · intro hdet hmem herr
    have hlines : testSeedLines v failures =
        (failures.map (fun f => f.errors.map (fun _ => (f.name, f.seed)))).flatten := by
      simp [testSeedLines, hdet]
    rw [hlines, List.mem_flatten]
    refine ⟨f.errors.map (fun _ => (f.name, f.seed)), List.mem_map_of_mem _ hmem, ?_⟩
    cases he : f.errors with
    | nil => exact absurd he herr
    | cons a l => simp

/-- C6 witness: the amended conditions discharged at concrete inputs: a
violation stage with seed 5, no redirection and verbosity 2 prints the
seed line, and a failed test with one error at verbosity 3 gets its seed
line. -/
theorem c6_seed_surfaced_witness :
    seedSurfaced (outputResultModel (.error ("Invariant violated",
      { args := { out := none, outItf := none, verbosity := 2 },
        seed := some 5, status := some .violation }))) = true ∧
    ("myTest", (3 : Int)) ∈ testSeedLines 3 [{ name := "myTest", seed := 3, errors := ["div by zero"] }] := by
  constructor
  · exact (c6_seed_surfaced_conditions "Invariant violated"
      { args := { out := none, outItf := none, verbosity := 2 },
        seed := some 5, status := some .violation } 5 3
      [{ name := "myTest", seed := 3, errors := ["div by zero"] }]
      { name := "myTest", seed := 3, errors := ["div by zero"] }).2.1
      rfl (by decide) (by decide) (by decide) (by decide)
  · exact (c6_seed_surfaced_conditions "Invariant violated"
      { args := { out := none, outItf := none, verbosity := 2 },
        seed := some 5, status := some .violation } 5 3
      [{ name := "myTest", seed := 3, errors := ["div by zero"] }]
      { name := "myTest", seed := 3, errors := ["div by zero"] }).2.2
      (by decide) (by decide) (by decide)

/-- C10: the main module name is chosen with a fixed precedence: the
--main argument when given; otherwise, when the source parsed to exactly
one module, that module's name; otherwise the input basename with the
.qnt extension stripped. -/
theorem c10_main_module_precedence (mainArg : Option String)
    (moduleNames : List String) (input : String) :
    (∀ m, mainArg = some m → m ≠ "" → mainModuleName mainArg moduleNames input = m) ∧
    (mainArg = none → ∀ n, moduleNames = [n] →
      mainModuleName mainArg moduleNames input = n) ∧
    (mainArg = none → moduleNames.length ≠ 1 →
      mainModuleName mainArg moduleNames input = basenameWithExt input ".qnt") := by
  refine ⟨?_, ?_, ?_⟩
  · intro m hm hne
    subst hm
    simp [mainModuleName, guessMainModule, jsTruthyStr, hne]
  · intro hm n hn
    subst hm; subst hn
    simp [mainModuleName, guessMainModule, jsTruthyStr, mkDefaultModuleName]
  · intro hm hlen
    subst hm
    simp [mainModuleName, guessMainModule, jsTruthyStr, mkDefaultModuleName, hlen]

/-- C10 witness: the precedence evaluated at concrete inputs via the
theorem: an explicit --main wins over a single parsed module, a single
parsed module wins over the filename, and with two modules the basename
of the input with .qnt stripped is chosen. -/
theorem c10_main_module_witness :
    mainModuleName (some "Chosen") ["OnlyOne"] "dir/file.qnt" = "Chosen" ∧
    mainModuleName none ["OnlyOne"] "dir/file.qnt" = "OnlyOne" ∧
    mainModuleName none ["A", "B"] "dir/file.qnt" = basenameWithExt "dir/file.qnt" ".qnt" := by
  refine ⟨?_, ?_, ?_⟩
  · exact (c10_main_module_precedence (some "Chosen") ["OnlyOne"] "dir/file.qnt").1
      "Chosen" rfl (by decide)
  · exact (c10_main_module_precedence none ["OnlyOne"] "dir/file.qnt").2.1
      rfl "OnlyOne" rfl
  · exact (c10_main_module_precedence none ["A", "B"] "dir/file.qnt").2.2
      rfl (by decide)

/-- C7 counterexample: with no --match argument the definition foo does
not pass the filter (it does not end in Test); it is never run, but it is
also not reported as ignored: the ignored report of this invocation is
empty, because non-matching definitions are filtered out before the
evaluator produces any result, refuting the claim that a non-matching
name is reported as ignored. -/
theorem c7_ignored_counterexample :
    isMatchingTest (fun _ _ => false) none "foo" = false ∧
    "foo" ∉ (runTestsPipeline 1 (fun _ _ => false) (fun _ => TestStatus.passed)
      [tmodC7] { main := none, input := "A.qnt", seed := none, matchArg := none }).testsRun ∧
    (runTestsPipeline 1 (fun _ _ => false) (fun _ => TestStatus.passed)
      [tmodC7] { main := none, input := "A.qnt", seed := none, matchArg := none }).ignoredReported
      = [] := by
  decide

/-- C7 amended: a definition of the main module is selected and run as a
test if and only if its kind is def and it passes isMatchingTest (the
--match regular expression when a nonempty one is given, otherwise the
name ends with Test); a definition not passing this filter is never run
and does not appear in the results or in the ignored report at all (the
ignored report only reflects evaluator-produced statuses). -/
theorem c7_test_filter (fresh : Int) (regexTest : String → String → Bool)
    (evalTest : String → TestStatus) (modules : List TModule) (args : TestArgs)
    (m : TModule)
    (hfind : modules.find? (fun mm => mm.name ==
      mainModuleName args.main (modules.map TModule.name) args.input) = some m)
    (hrng : ∃ rng, mkRng fresh args.seed = .ok rng)
    (hnodup : (m.defs.map TestDef.name).Nodup) :
    (∀ d ∈ m.defs,
      (d.name ∈ (runTestsPipeline fresh regexTest evalTest modules args).testsRun ↔
        (d.kind = "def" ∧ isMatchingTest regexTest args.matchArg d.name = true))) ∧
    (∀ d ∈ m.defs,
      ¬(d.kind = "def" ∧ isMatchingTest regexTest args.matchArg d.name = true) →
        d.name ∉ (runTestsPipeline fresh regexTest evalTest modules args).testsRun ∧
        d.name ∉ ((runTestsPipeline fresh regexTest evalTest modules args).results).map Prod.fst ∧
        d.name ∉ (runTestsPipeline fresh regexTest evalTest modules args).ignoredReported) := by
  obtain ⟨rng, hrng⟩ := hrng
  have hrunEq : (runTestsPipeline fresh regexTest evalTest modules args).testsRun =
      (m.defs.filter (fun d =>
        d.kind == "def" && isMatchingTest regexTest args.matchArg d.name)).map TestDef.name := by
    simp only [runTestsPipeline, hfind, hrng]
  have hresEq : (runTestsPipeline fresh regexTest evalTest modules args).results =
      (m.defs.filter (fun d =>
        d.kind == "def" && isMatchingTest regexTest args.matchArg d.name)).map
          (fun d => (d.name, evalTest d.name)) := by
    simp only [runTestsPipeline, hfind, hrng]
  have hignEq : (runTestsPipeline fresh regexTest evalTest modules args).ignoredReported =
      (((m.defs.filter (fun d =>
        d.kind == "def" && isMatchingTest regexTest args.matchArg d.name)).map
          (fun d => (d.name, evalTest d.name))).filter
            (fun r => r.2 == TestStatus.ignored)).map Prod.fst := by
    simp only [runTestsPipeline, hfind, hrng]
  have hmemRun : ∀ d ∈ m.defs,
      (d.name ∈ (runTestsPipeline fresh regexTest evalTest modules args).testsRun ↔
        (d.kind = "def" ∧ isMatchingTest regexTest args.matchArg d.name = true)) := by
    intro d hd
    rw [hrunEq]
    simp only [List.mem_map, List.mem_filter]
    constructor
    · rintro ⟨d2, ⟨hd2mem, hd2filt⟩, hd2name⟩
      have heq : d2 = d := List.inj_on_of_nodup_map hnodup hd2mem hd hd2name
      subst heq
      simpa [Bool.and_eq_true, beq_iff_eq] using hd2filt
    · rintro ⟨hkind, hmatch⟩
      exact ⟨d, ⟨hd, by simp [hkind, hmatch]⟩, rfl⟩
  refine ⟨hmemRun, ?_⟩
  intro d hd hnot
  have hrun : d.name ∉ (runTestsPipeline fresh regexTest evalTest modules args).testsRun := by
    intro hmem
    exact hnot ((hmemRun d hd).mp hmem)
  have hresNames : ((runTestsPipeline fresh regexTest evalTest modules args).results).map Prod.fst =
      (runTestsPipeline fresh regexTest evalTest modules args).testsRun := by
    rw [hresEq, hrunEq, List.map_map]
    rfl
  have hres : d.name ∉ ((runTestsPipeline fresh regexTest evalTest modules args).results).map Prod.fst := by
    rw [hresNames]; exact hrun
  refine ⟨hrun, hres, ?_⟩
  intro hmem
  apply hres
  rw [hignEq] at hmem
  rw [hresEq]
  exact List.map_subset _ (fun x hx => List.mem_of_mem_filter hx) hmem

/-- C7 witness: the amended filter discharged at concrete inputs: in a
module with definitions fooTest and bar (both of kind def) and no --match
argument, fooTest is selected and run while bar is neither run nor
reported. -/
theorem c7_test_filter_witness :
    "fooTest" ∈ (runTestsPipeline 1 (fun _ _ => false) (fun _ => TestStatus.passed)
      [{ name := "A", defs := [{ name := "fooTest", kind := "def" },
                               { name := "bar", kind := "def" }] }]
      { main := none, input := "A.qnt", seed := none, matchArg := none }).testsRun ∧
    "bar" ∉ (runTestsPipeline 1 (fun _ _ => false) (fun _ => TestStatus.passed)
      [{ name := "A", defs := [{ name := "fooTest", kind := "def" },
                               { name := "bar", kind := "def" }] }]
      { main := none, input := "A.qnt", seed := none, matchArg := none }).testsRun := by
  constructor
  · exact ((c7_test_filter 1 (fun _ _ => false) (fun _ => TestStatus.passed)
      [{ name := "A", defs := [{ name := "fooTest", kind := "def" },
                               { name := "bar", kind := "def" }] }]
      { main := none, input := "A.qnt", seed := none, matchArg := none }
      { name := "A", defs := [{ name := "fooTest", kind := "def" },
                              { name := "bar", kind := "def" }] }
      (by decide) ⟨{ seed := 1 }, by decide⟩ (by decide)).1
      { name := "fooTest", kind := "def" } (by decide)).mpr ⟨rfl, by decide⟩
  · exact ((c7_test_filter 1 (fun _ _ => false) (fun _ => TestStatus.passed)
      [{ name := "A", defs := [{ name := "fooTest", kind := "def" },
                               { name := "bar", kind := "def" }] }]
      { main := none, input := "A.qnt", seed := none, matchArg := none }
      { name := "A", defs := [{ name := "fooTest", kind := "def" },
                              { name := "bar", kind := "def" }] }
      (by decide) ⟨{ seed := 1 }, by decide⟩ (by decide)).2
      { name := "bar", kind := "def" } (by decide) (by decide)).1

/-- C3 counterexample: with the explicit seed string 0 the truthiness slip
of mkRng makes the driver fall back to the fresh unpredictable seed, so
two independent runs of the simulation driver with identical module, seed
argument and budgets (differing only in the ambient fresh seed, here 1 and
2) produce different traces, refuting determinism for every seed. -/
theorem c3_determinism_counterexample :
    runSimulatorPipeline 1 [mRec] argsSeedZero ≠ runSimulatorPipeline 2 [mRec] argsSeedZero := by
  decide

/-- C3 amended: for every module list, budgets and seed argument that
parses as a nonzero big integer, the simulation driver is a function of
those inputs alone: two runs differing only in the ambient fresh seed
produce identical results, hence bit-identical traces and the same
terminal status. -/
theorem c3_determinism_nonzero_seed {σ : Type} (modules : List (QModule σ))
    (args : SimArgs) (t : String) (n : Int) (f1 f2 : Int)
    (hseed : args.seed = some t) (hparse : parseBigInt t = some n) (hnz : n ≠ 0) :
    runSimulatorPipeline f1 modules args = runSimulatorPipeline f2 modules args := by
  have hmk : ∀ f : Int, mkRng f args.seed = .ok { seed := n } := by
    intro f
    rw [hseed]
    simp [mkRng, hparse, mkRngFromParsed, jsTruthyOptInt, newRng, hnz]
  simp only [runSimulatorPipeline, hmk]

/-- C3 witness: determinism discharged at a concrete input: with the seed
string 7 the two runs with ambient fresh seeds 1 and 2 coincide. -/
theorem c3_determinism_witness :
    runSimulatorPipeline 1 [mRec] argsSeedSeven = runSimulatorPipeline 2 [mRec] argsSeedSeven :=
  c3_determinism_nonzero_seed [mRec] argsSeedSeven "7" 7 1 2 rfl (by decide) (by decide)

/-- C4: when the seed argument does not parse as a big integer, or the
main module cannot be found among the parsed modules, both drivers return
a configuration error before creating an evaluator or running anything:
the simulator reports a configuration error with zero evaluators and zero
simulate calls, and the test driver reports a configuration error with
zero evaluators and no tests run. -/
theorem c4_config_errors_before_execution {σ : Type} (fresh : Int)
    (modules : List (QModule σ)) (argsS : SimArgs)
    (regexTest : String → String → Bool) (evalTest : String → TestStatus)
    (tmods : List TModule) (argsT : TestArgs) :
    (((∃ t, argsS.seed = some t ∧ parseBigInt t = none) ∨
        mainModuleName argsS.main (modules.map QModule.name) argsS.input ∉
          modules.map QModule.name) →
      (∃ msg, (runSimulatorPipeline fresh modules argsS).res = SimRunResult.configError msg) ∧
      (runSimulatorPipeline fresh modules argsS).evaluatorsCreated = 0 ∧
      (runSimulatorPipeline fresh modules argsS).simulateCalls = 0) ∧
    (((∃ t, argsT.seed = some t ∧ parseBigInt t = none) ∨
        mainModuleName argsT.main (tmods.map TModule.name) argsT.input ∉
          tmods.map TModule.name) →
      (∃ msg, (runTestsPipeline fresh regexTest evalTest tmods argsT).configError = some msg) ∧
      (runTestsPipeline fresh regexTest evalTest tmods argsT).evaluatorsCreated = 0 ∧
      (runTestsPipeline fresh regexTest evalTest tmods argsT).testsRun = []) := by
  constructor
  · intro h
    have hout : ∃ msg, runSimulatorPipeline fresh modules argsS =
        { res := SimRunResult.configError msg, evaluatorsCreated := 0, simulateCalls := 0 } := by
      rcases h with ⟨t, hseed, hparse⟩ | hmain
      · cases hfind : modules.find? (fun m =>
            m.name == mainModuleName argsS.main (modules.map QModule.name) argsS.input) with
        | none =>
          refine ⟨"Main module " ++
            mainModuleName argsS.main (modules.map QModule.name) argsS.input ++ " not found", ?_⟩
          simp only [runSimulatorPipeline, hfind]
        | some m =>
          refine ⟨"--seed must be a big integer, found: " ++ t, ?_⟩
          simp only [runSimulatorPipeline, hfind, mkRng, hseed, hparse]
      · have hfind : modules.find? (fun m =>
            m.name == mainModuleName argsS.main (modules.map QModule.name) argsS.input) = none := by
          rw [List.find?_eq_none]
          intro x hx hcontra
          exact hmain (by
            rw [← show x.name = _ from beq_iff_eq.mp hcontra]
            exact List.mem_map_of_mem _ hx)
        refine ⟨"Main module " ++
          mainModuleName argsS.main (modules.map QModule.name) argsS.input ++ " not found", ?_⟩
        simp only [runSimulatorPipeline, hfind]
    obtain ⟨msg, hmsg⟩ := hout
    rw [hmsg]
    exact ⟨⟨msg, rfl⟩, rfl, rfl⟩
  · intro h
    have hout : ∃ msg, runTestsPipeline fresh regexTest evalTest tmods argsT =
        { configError := some msg, evaluatorsCreated := 0, testsRun := [],
          results := [], ignoredReported := [] } := by
      rcases h with ⟨t, hseed, hparse⟩ | hmain
      · cases hfind : tmods.find? (fun m =>
            m.name == mainModuleName argsT.main (tmods.map TModule.name) argsT.input) with
        | none =>
          refine ⟨"Main module " ++
            mainModuleName argsT.main (tmods.map TModule.name) argsT.input ++ " not found", ?_⟩
          simp only [runTestsPipeline, hfind]
        | some m =>
          refine ⟨"--seed must be a big integer, found: " ++ t, ?_⟩
          simp only [runTestsPipeline, hfind, mkRng, hseed, hparse]
      · have hfind : tmods.find? (fun m =>
            m.name == mainModuleName argsT.main (tmods.map TModule.name) argsT.input) = none := by
          rw [List.find?_eq_none]
          intro x hx hcontra
          exact hmain (by
            rw [← show x.name = _ from beq_iff_eq.mp hcontra]
            exact List.mem_map_of_mem _ hx)
        refine ⟨"Main module " ++
          mainModuleName argsT.main (tmods.map TModule.name) argsT.input ++ " not found", ?_⟩
        simp only [runTestsPipeline, hfind]
    obtain ⟨msg, hmsg⟩ := hout
    rw [hmsg]
    exact ⟨⟨msg, rfl⟩, rfl, rfl⟩

/-- C4 witness: the configuration-error guarantee discharged at concrete
inputs: the simulator invoked with the malformed seed xyz and the test
driver with the malformed seed zz both fail with a configuration error,
zero evaluators and nothing executed. -/
theorem c4_config_errors_witness :
    ((∃ msg, (runSimulatorPipeline 1 [mRec] argsSeedBad).res = SimRunResult.configError msg) ∧
      (runSimulatorPipeline 1 [mRec] argsSeedBad).evaluatorsCreated = 0 ∧
      (runSimulatorPipeline 1 [mRec] argsSeedBad).simulateCalls = 0) ∧
    ((∃ msg, (runTestsPipeline 1 (fun _ _ => false) (fun _ => TestStatus.passed)
        [tmodC7] argsTestSeedBad).configError = some msg) ∧
      (runTestsPipeline 1 (fun _ _ => false) (fun _ => TestStatus.passed)
        [tmodC7] argsTestSeedBad).evaluatorsCreated = 0 ∧
      (runTestsPipeline 1 (fun _ _ => false) (fun _ => TestStatus.passed)
        [tmodC7] argsTestSeedBad).testsRun = []) := by
  constructor
  · exact (c4_config_errors_before_execution 1 [mRec] argsSeedBad
      (fun _ _ => false) (fun _ => TestStatus.passed) [tmodC7] argsTestSeedBad).1
      (Or.inl ⟨"xyz", rfl, by decide⟩)
  · exact (c4_config_errors_before_execution 1 [mRec] argsSeedBad
      (fun _ _ => false) (fun _ => TestStatus.passed) [tmodC7] argsTestSeedBad).2
      (Or.inl ⟨"zz", rfl, by decide⟩)

/-- C8: addItfHeader prepends a #meta property holding the format
identifier ITF, the source file, the run status and the generation
timestamp, and leaves every field of the given trace object unchanged:
the result is exactly the header followed by the trace fields, the #meta
lookup returns the header, every trace field still looks up to its
original value, and the header object carries the four advertised
fields. -/
theorem c8_itf_header (source status descr : String) (ts : Int)
    (trace : List (String × Json))
    (hmeta : "#meta" ∉ trace.map Prod.fst)
    (hnodup : (trace.map Prod.fst).Nodup) :
    addItfHeader source status descr ts trace
      = ("#meta", itfMeta source status descr ts) :: trace ∧
    List.lookup "#meta" (addItfHeader source status descr ts trace)
      = some (itfMeta source status descr ts) ∧
    (∀ k v, (k, v) ∈ trace →
      List.lookup k (addItfHeader source status descr ts trace) = some v) ∧
    (∃ fields, itfMeta source status descr ts = Json.obj fields ∧
      List.lookup "format" fields = some (Json.str "ITF") ∧
      List.lookup "source" fields = some (Json.str source) ∧
      List.lookup "status" fields = some (Json.str status) ∧
      List.lookup "timestamp" fields = some (Json.int ts)) := by
  have h1 : addItfHeader source status descr ts trace
      = ("#meta", itfMeta source status descr ts) :: trace := by
    unfold addItfHeader
    rw [jsSpread_disjoint trace [("#meta", itfMeta source status descr ts)] ?_ hnodup]
    · simp
    · intro k hk
      simp only [List.map_cons, List.map_nil, List.mem_singleton]
      intro he
      exact hmeta (he ▸ hk)
  refine ⟨h1, ?_, ?_, ?_⟩
  · rw [h1]
    simp [List.lookup]
  · intro k v hkv
    rw [h1]
    have hk : (k == "#meta") = false := by
      rw [beq_eq_false_iff_ne]
      intro he
      exact hmeta (he ▸ List.mem_map_of_mem Prod.fst hkv)
    rw [List.lookup, hk]
    exact lookup_of_mem_nodup trace k v hnodup hkv
  · refine ⟨_, rfl, ?_, ?_, ?_, ?_⟩ <;> rfl

/-- C8 witness: the header theorem discharged on a concrete two-field
trace object with the vars and states fields. -/
theorem c8_itf_header_witness :
    addItfHeader "f.qnt" "violation" "Created by Quint on a date" 0
      [("vars", Json.obj []), ("states", Json.obj [])]
      = ("#meta", itfMeta "f.qnt" "violation" "Created by Quint on a date" 0)
        :: [("vars", Json.obj []), ("states", Json.obj [])] :=
  (c8_itf_header "f.qnt" "violation" "Created by Quint on a date" 0
    [("vars", Json.obj []), ("states", Json.obj [])] (by decide) (by decide)).1

/-- A successful first-occurrence split decomposes the string into the
part before the pattern, the pattern and the part after it. -/
theorem splitFirst_eq_append (pat : List Char) :
    ∀ s pre suf, splitFirst pat s = some (pre, suf) → s = pre ++ pat ++ suf := by
  intro s
  induction s with
  | nil =>
    intro pre suf h
    rw [splitFirst] at h
    split_ifs at h with hp
    · have hpat : pat = [] := by
        have hpref := List.isPrefixOf_iff_prefix.mp hp
        simpa using hpref
      simp only [Option.some.injEq, Prod.mk.injEq] at h
      obtain ⟨hpre, hsuf⟩ := h
      subst hpre
      subst hsuf
      simp [hpat]
  | cons c rest ih =>
    intro pre suf h
    rw [splitFirst] at h
    split_ifs at h with hp
    · simp only [Option.some.injEq, Prod.mk.injEq] at h
      obtain ⟨hpre, hsuf⟩ := h
      subst hpre
      subst hsuf
      have hpref := List.isPrefixOf_iff_prefix.mp hp
      have happ := List.prefix_iff_eq_append.mp hpref
      simpa using happ.symm
    · rw [Option.map_eq_some'] at h
      obtain ⟨⟨a, b⟩, hab, heq⟩ := h
      simp only [Prod.mk.injEq] at heq
      obtain ⟨hpre, hsuf⟩ := heq
      subst hpre
      subst hsuf
      have hrest := ih a b hab
      rw [hrest]
      simp

/-- For a non-empty pattern, the remainder after the first occurrence is
strictly shorter than the whole string. -/
theorem splitFirst_suf_lt (pat s pre suf : List Char) (hp : pat ≠ [])
    (h : splitFirst pat s = some (pre, suf)) : suf.length < s.length := by
  have heq := splitFirst_eq_append pat s pre suf h
  have hl : s.length = pre.length + pat.length + suf.length := by
    rw [heq]; simp [List.length_append]; omega
  have hpat : 0 < pat.length := List.length_pos.mpr hp
  omega

/-- The splitter always returns at least one piece. -/
theorem splitAllGo_shape (pat : List Char) (fuel : Nat) (s : List Char) :
    ∃ y l, splitAllGo pat fuel s = y :: l := by
  cases fuel with
  | zero => exact ⟨s, [], rfl⟩
  | succ f =>
    cases hs : splitFirst pat s with
    | none => exact ⟨s, [], by simp [splitAllGo, hs]⟩
    | some pr =>
      obtain ⟨a, b⟩ := pr
      exact ⟨a, splitAllGo pat f b, by simp [splitAllGo, hs]⟩

/-- The fuel of the splitter is irrelevant once it exceeds the length of
the string. -/
theorem splitAllGo_fuel_irrel (pat : List Char) (hp : pat ≠ []) :
    ∀ fuel fuel2 s, s.length < fuel → s.length < fuel2 →
      splitAllGo pat fuel s = splitAllGo pat fuel2 s := by
  intro fuel
  induction fuel with
  | zero => intro fuel2 s h _; exact absurd h (by omega)
  | succ f ih =>
    intro fuel2 s h h2
    cases fuel2 with
    | zero => exact absurd h2 (by omega)
    | succ f2 =>
      cases hs : splitFirst pat s with
      | none => simp [splitAllGo, hs]
      | some pr =>
        obtain ⟨a, b⟩ := pr
        have hlt := splitFirst_suf_lt pat s a b hp hs
        simp only [splitAllGo, hs]
        rw [ih f2 b (by omega) (by omega)]

/-- Replacing every occurrence of a non-empty pattern equals splitting on
the pattern and rejoining the pieces with the replacement. -/
theorem replaceAllGo_eq_join (pat repl : List Char) (hp : pat ≠ []) :
    ∀ fuel s, s.length < fuel →
      replaceAllGo pat repl fuel s = joinWith repl (splitAllGo pat fuel s) := by
  intro fuel
  induction fuel with
  | zero => intro s h; exact absurd h (by omega)
  | succ f ih =>
    intro s h
    cases hs : splitFirst pat s with
    | none => simp [replaceAllGo, splitAllGo, hs, joinWith]
    | some pr =>
      obtain ⟨a, b⟩ := pr
      have hlt := splitFirst_suf_lt pat s a b hp hs
      obtain ⟨y, l, hshape⟩ := splitAllGo_shape pat f b
      simp only [replaceAllGo, splitAllGo, hs]
      rw [ih b (by omega), hshape]
      simp [joinWith, List.append_assoc]

/-- Rejoining the split pieces with the pattern itself restores the
string. -/
theorem joinWith_splitAllGo (pat : List Char) (hp : pat ≠ []) :
    ∀ fuel s, s.length < fuel →
      joinWith pat (splitAllGo pat fuel s) = s := by
  intro fuel
  induction fuel with
  | zero => intro s h; exact absurd h (by omega)
  | succ f ih =>
    intro s h
    cases hs : splitFirst pat s with
    | none => simp [splitAllGo, hs, joinWith]
    | some pr =>
      obtain ⟨a, b⟩ := pr
      have hlt := splitFirst_suf_lt pat s a b hp hs
      have heq := splitFirst_eq_append pat s a b hs
      obtain ⟨y, l, hshape⟩ := splitAllGo_shape pat f b
      simp only [splitAllGo, hs, hshape]
      have hb : joinWith pat (y :: l) = b := by
        rw [← hshape]; exact ih b (by omega)
      simp only [joinWith]
      rw [hb]
      exact heq.symm

/-- Top-level form: replaceAll equals split-and-rejoin with the
replacement. -/
theorem replaceAll_eq_join (pat repl s : List Char) (hp : pat ≠ []) :
    replaceAllL pat repl s = joinWith repl (splitAllL pat s) :=
  replaceAllGo_eq_join pat repl hp (s.length + 1) s (by omega)

/-- Top-level form: joining the split pieces with the pattern restores
the string. -/
theorem joinWith_splitAll (pat s : List Char) (hp : pat ≠ []) :
    joinWith pat (splitAllL pat s) = s :=
  joinWith_splitAllGo pat hp (s.length + 1) s (by omega)

/-- The first occurrence of a single character that does not occur in the
prefix splits exactly at that character. -/
theorem splitFirst_single_first (d : Char) (b : List Char) :
    ∀ a : List Char, d ∉ a → splitFirst [d] (a ++ d :: b) = some (a, b) := by
  intro a
  induction a with
  | nil =>
    intro _
    rw [List.nil_append, splitFirst]
    rw [if_pos (by simp [List.isPrefixOf])]
    simp
  | cons c a2 ih =>
    intro hd
    have hdc : d ≠ c := fun h => hd (by simp [h])
    have hda : d ∉ a2 := fun h => hd (List.mem_cons_of_mem _ h)
    have hpref : ([d].isPrefixOf (c :: (a2 ++ d :: b))) = false := by
      simp [List.isPrefixOf, hdc]
    rw [List.cons_append, splitFirst, hpref]
    simp [ih hda]

/-- Splitting on a dot after a dot-free prefix produces the prefix as the
first piece. -/
theorem splitAll_cons_of_first (d : Char) (a b : List Char) (hd : d ∉ a) :
    splitAllL [d] (a ++ d :: b) = a :: splitAllL [d] b := by
  have hs := splitFirst_single_first d b a hd
  have hlen : b.length < (a ++ d :: b).length := by
    simp [List.length_append]
    omega
  rw [splitAllL, splitAllGo, hs]
  show a :: splitAllGo [d] (a ++ d :: b).length b = a :: splitAllL [d] b
  rw [splitAllGo_fuel_irrel [d] (by simp) ((a ++ d :: b).length) (b.length + 1) b hlen
    (by omega)]
  rfl

/-- C9: in the output-template expansion every occurrence of the test
placeholder is replaced by the test name and every occurrence of the seq
placeholder by the decimal index; when the seq placeholder is absent and
auto-append is enabled the index is appended to the first dot-separated
part of the filename, immediately before its first extension; otherwise
the template is returned unchanged. -/
theorem c9_output_template (template name : List Char) (index : Nat)
    (autoAppend : Bool) (a b : List Char) :
    (expandNamedOutputTemplate template name index autoAppend
      = expandOutputTemplate (joinWith name (splitAllL testPH template)) index autoAppend) ∧
    (includesL seqPH template = true →
      expandOutputTemplate template index autoAppend
        = joinWith (natToStrL index) (splitAllL seqPH template)) ∧
    (includesL seqPH template = false → autoAppend = true →
      template = a ++ '.' :: b → ('.' : Char) ∉ a →
      expandOutputTemplate template index autoAppend
        = a ++ natToStrL index ++ '.' :: b) ∧
    (includesL seqPH template = false → autoAppend = false →
      expandOutputTemplate template index autoAppend = template) := by
  refine ⟨?_, ?_, ?_, ?_⟩
  · rw [expandNamedOutputTemplate, replaceAll_eq_join _ _ _ (by simp [testPH])]
  · intro hinc
    rw [expandOutputTemplate, if_pos hinc]
    exact replaceAll_eq_join _ _ _ (by simp [seqPH])
  · intro hinc hauto hdecomp hna
    subst hauto
    have h1 : expandOutputTemplate template index true
        = (match splitAllL ['.'] template with
           | [] => []
           | p0 :: rest => joinWith ['.'] ((p0 ++ natToStrL index) :: rest)) := by
      rw [expandOutputTemplate, if_neg (by simp [hinc]), if_pos rfl]
    rw [h1, hdecomp, splitAll_cons_of_first '.' a b hna]
    obtain ⟨y, l, hshape⟩ := splitAllGo_shape ['.'] (b.length + 1) b
    have hsplitb : splitAllL ['.'] b = y :: l := hshape
    rw [hsplitb]
    have hjb : joinWith ['.'] (y :: l) = b := by
      rw [← hsplitb]
      exact joinWith_splitAll ['.'] b (by simp)
    simp only [joinWith]
    rw [hjb]
    simp
  · intro hinc hauto
    subst hauto
    rw [expandOutputTemplate, if_neg (by simp [hinc]), if_neg (by simp)]

/-- C9 witness: the expansion discharged at concrete inputs: the template
with the test placeholder and no seq placeholder, expanded for test
myTest and index 3 with auto-append on, puts the index right before the
first extension. -/
theorem c9_output_template_witness :
    expandNamedOutputTemplate ("out_{test}.itf.json".toList) ("myTest".toList) 3 true
      = ("out_myTest3.itf.json".toList) := by
  have h1 := (c9_output_template ("out_{test}.itf.json".toList) ("myTest".toList) 3 true
    ("out_myTest".toList) ("itf.json".toList)).1
  have h3 := (c9_output_template
      (joinWith ("myTest".toList) (splitAllL testPH ("out_{test}.itf.json".toList)))
      ("myTest".toList) 3 true ("out_myTest".toList) ("itf.json".toList)).2.2.1
    (by decide) rfl (by decide) (by decide)
  rw [h1, h3]
  decide

end QuintCli
